import Mathlib

/-!
Shallow embedding of the circuit-breaker library (src/circuitBreaker.js).

The JavaScript values that drive the behaviour are modelled explicitly: the
state and forced fields of a breaker range over the JS values undefined, null,
and the three STATE constants (OPEN = 0, HALF_OPEN = 1, CLOSED = 2), because
the code distinguishes strict equality with null from undefined.  Invocations
of the onopen and onclose callbacks are recorded as traces of the metrics
record each call received.  Division in calculate is modelled over the
rationals.
-/

namespace CircuitBreaker

/-- A JS value stored in the state or forced field of a breaker: undefined
(the value of a field that was never assigned), null, or one of the three
STATE constants. -/
inductive JState where
  | undef
  | jnull
  | stOpen
  | stHalfOpen
  | stClosed
deriving DecidableEq

/-- A metrics bucket, as built by the createBucket helper: four counters. -/
structure Bucket where
  failure : Nat
  success : Nat
  timeout : Nat
  outage : Nat
deriving DecidableEq

/-- The fresh bucket returned by createBucket: all counters zero. -/
def emptyBucket : Bucket := { failure := 0, success := 0, timeout := 0, outage := 0 }

/-- The record returned by calculate. -/
structure Metrics where
  total : Nat
  error : Nat
  percent : ℚ
deriving DecidableEq

/-- The calculate method: sums failure + timeout (errors) and
errors + success (totals) over every bucket, then the percentage is
error divided by total when total is positive, else divided by 1. -/
def calculate (buckets : List Bucket) : Metrics :=
  let error := (buckets.map (fun b => b.failure + b.timeout)).sum
  let total := (buckets.map (fun b => (b.failure + b.timeout) + b.success)).sum
  { total := total
    error := error
    percent := ((error : ℚ) / (if 0 < total then (total : ℚ) else 1)) * 100 }

/-- The mutable fields of a CircuitBreaker instance after construction.
The onopenCalls and oncloseCalls traces record each invocation of the
configured callbacks together with the metrics record passed to it. -/
structure CB where
  slidingTimeWindow : Nat
  bucketsNumber : Nat
  tolerance : Nat
  calibration : Nat
  timeout : Nat
  buckets : List Bucket
  state : JState
  forced : JState
  bucketIndex : Nat
  onopenCalls : List Metrics
  oncloseCalls : List Metrics
deriving DecidableEq

/-- The numeric configuration options accepted by the constructor; none
models an absent (or non-numeric, hence NaN) option. -/
structure Options where
  slidingTimeWindow : Option Int := none
  bucketsNumber : Option Int := none
  tolerance : Option Int := none
  calibration : Option Int := none
  timeout : Option Int := none

/-- Configuration defaulting from the constructor: a supplied value is kept
when it is a number greater than zero, otherwise the documented default is
used. -/
def cfgVal (given : Option Int) (dflt : Nat) : Nat :=
  match given with
  | some v => if 0 < v then v.toNat else dflt
  | none => dflt

/-- Construction of a breaker: configuration defaulting, a single fresh
bucket, state CLOSED, bucket index zero.  The forced field is never assigned
by the constructor, so it holds the JS value undefined. -/
def mkBreaker (options : Options) : CB :=
  { slidingTimeWindow := cfgVal options.slidingTimeWindow 30000
    bucketsNumber := cfgVal options.bucketsNumber 10
    tolerance := cfgVal options.tolerance 50
    calibration := cfgVal options.calibration 5
    timeout := cfgVal options.timeout 0
    buckets := [emptyBucket]
    state := JState.stClosed
    forced := JState.undef
    bucketIndex := 0
    onopenCalls := []
    oncloseCalls := [] }

/-- The getLastBucket helper: the last element of the bucket list (the
current bucket).  The empty case never arises on reachable breakers. -/
def getLastBucket : List Bucket → Bucket
  | [] => emptyBucket
  | [b] => b
  | _ :: b :: rest => getLastBucket (b :: rest)

/-- Mutation of the current (last) bucket in place, as the JS code does by
fetching the last bucket object and incrementing one of its counters. -/
def updateLast (f : Bucket → Bucket) : List Bucket → List Bucket
  | [] => []
  | [b] => [f b]
  | a :: b :: rest => a :: updateLast f (b :: rest)

/-- The open method: forced is unconditionally overwritten with the current
state, then the state is forced to OPEN. -/
def openBreaker (cb : CB) : CB :=
  { cb with forced := cb.state, state := JState.stOpen }

/-- The close method: forced is unconditionally overwritten with the current
state, then the state is forced to CLOSED. -/
def closeBreaker (cb : CB) : CB :=
  { cb with forced := cb.state, state := JState.stClosed }

/-- The reset method: the forced value is copied back into state and forced
is set to null. -/
def resetBreaker (cb : CB) : CB :=
  { cb with state := cb.forced, forced := JState.jnull }

/-- The isOpen method: strict equality of the state with STATE.OPEN. -/
def isOpen (cb : CB) : Bool :=
  cb.state = JState.stOpen

/-- The updateState method: on HALF_OPEN the last command decides between
OPEN and CLOSED (firing onclose when closing); otherwise the breaker opens
(firing onopen) exactly when total exceeds the calibration and the error
percentage exceeds the tolerance. -/
def updateState (cb : CB) : CB :=
  let metrics := calculate cb.buckets
  if cb.state = JState.stHalfOpen then
    if (getLastBucket cb.buckets).success = 0 ∧ 0 < metrics.error then
      { cb with state := JState.stOpen }
    else
      { cb with state := JState.stClosed, oncloseCalls := cb.oncloseCalls ++ [metrics] }
  else
    if cb.calibration < metrics.total ∧ (cb.tolerance : ℚ) < metrics.percent then
      { cb with state := JState.stOpen, onopenCalls := cb.onopenCalls ++ [metrics] }
    else
      cb

/-- The three measurement kinds wired into the measure closures. -/
inductive Measure where
  | success
  | failure
  | timeout
deriving DecidableEq

/-- Increment of the counter named by a measurement kind. -/
def incMeasure (p : Measure) (b : Bucket) : Bucket :=
  match p with
  | Measure.success => { b with success := b.success + 1 }
  | Measure.failure => { b with failure := b.failure + 1 }
  | Measure.timeout => { b with timeout := b.timeout + 1 }

/-- The per-invocation status record shared by the three measure closures.
The timer field records whether the field named timer holds a pending
timeout handle (the execute method stores the handle there); the timeout
field records whether the field named timeout holds a handle (the field the
measure closure inspects and clears). -/
structure Status where
  done : Bool
  timer : Bool
  timeout : Bool
deriving DecidableEq

/-- A status record at the start of an invocation with no timer scheduled. -/
def freshStatus : Status := { done := false, timer := false, timeout := false }

/-- One call of a measure closure: a completed invocation returns at once;
otherwise the handle held in the timeout field of the status (if any) is
cleared, the counter of the current bucket is incremented, updateState runs
exactly when forced is strictly equal to null, and the invocation is marked
done. -/
def measure (p : Measure) (status : Status) (cb : CB) : Status × CB :=
  if status.done then
    (status, cb)
  else
    let status1 := if status.timeout then { status with timeout := false } else status
    let cb1 := { cb with buckets := updateLast (incMeasure p) cb.buckets }
    let cb2 := if cb1.forced = JState.jnull then updateState cb1 else cb1
    ({ status1 with done := true }, cb2)

/-- The createNextSlidingBucket method: evict the oldest bucket when the
window is over capacity, increment the rotation counter, append a fresh
bucket, and evict again when over capacity. -/
def createNextSlidingBucket (cb : CB) : CB :=
  let bs0 := if cb.bucketsNumber < cb.buckets.length then cb.buckets.tail else cb.buckets
  let bs1 := bs0 ++ [emptyBucket]
  let bs2 := if cb.bucketsNumber < bs1.length then bs1.tail else bs1
  { cb with buckets := bs2, bucketIndex := cb.bucketIndex + 1 }

/-- One rotation tick: rotate the window; on rollover (rotation counter past
the bucket count) reset the counter and move an OPEN breaker to HALF_OPEN.
The tick inspects only isOpen, never the forced field. -/
def tick (cb : CB) : CB :=
  let cb1 := createNextSlidingBucket cb
  if cb1.bucketsNumber < cb1.bucketIndex then
    let cb2 := { cb1 with bucketIndex := 0 }
    if isOpen cb2 then { cb2 with state := JState.stHalfOpen } else cb2
  else
    cb1

/-- Iterated rotation ticks. -/
def ticks : Nat → CB → CB
  | 0, cb => cb
  | Nat.succ k, cb => ticks k (tick cb)

/-- The fallback path: the fallback body is run inside try/catch and its
outcome (normal or exceptional) is discarded either way, then the outage
counter of the current bucket is incremented.  Nothing else changes. -/
def fallbackRun (fb : Except String Unit) (cb : CB) : CB :=
  match fb with
  | Except.ok _ =>
      { cb with buckets := updateLast (fun b => { b with outage := b.outage + 1 }) cb.buckets }
  | Except.error _ =>
      { cb with buckets := updateLast (fun b => { b with outage := b.outage + 1 }) cb.buckets }

/-- The synchronous behaviour of a caller-supplied command: the list of
outcome callbacks it invokes in order, and whether it then raises. -/
structure Command where
  acts : List Measure
  throws : Bool

/-- Sequential invocation of measure closures sharing one status record. -/
def runCallbacks : List Measure → Status → CB → Status × CB
  | [], status, cb => (status, cb)
  | p :: rest, status, cb =>
      let r := measure p status cb
      runCallbacks rest r.1 r.2

/-- The effective timeout of an invocation: the per-call value when it is a
number greater than zero, else the breaker-level default. -/
def effTimeout (tmo : Option Int) (cb : CB) : Nat :=
  match tmo with
  | some t => if 0 < t then t.toNat else cb.timeout
  | none => cb.timeout

/-- The execute method: build a status record, store a timer handle in its
timer field when the effective timeout is positive, run the command with the
three measure closures, and on a synchronous exception call the failure
closure. -/
def execute (cmd : Command) (tmo : Option Int) (cb : CB) : Status × CB :=
  let t := effTimeout tmo cb
  let status : Status := { done := false, timer := 0 < t, timeout := false }
  let r := runCallbacks cmd.acts status cb
  if cmd.throws then measure Measure.failure r.1 r.2 else r

/-- The run method: fallback path when the breaker is open, command path
otherwise. -/
def run (cmd : Command) (fb : Except String Unit) (tmo : Option Int) (cb : CB) : CB :=
  if isOpen cb then fallbackRun fb cb else (execute cmd tmo cb).2

/-- Public operations on a breaker, for reasoning about operation
sequences.  A measurement operation is one committed measurement of a fresh
invocation. -/
inductive Op where
  | opMeasure (p : Measure)
  | opTick
  | opOpen
  | opClose
  | opReset
deriving DecidableEq

/-- Apply one operation to a breaker. -/
def applyOp : Op → CB → CB
  | Op.opMeasure p, cb => (measure p freshStatus cb).2
  | Op.opTick, cb => tick cb
  | Op.opOpen, cb => openBreaker cb
  | Op.opClose, cb => closeBreaker cb
  | Op.opReset, cb => resetBreaker cb

/-- Apply a sequence of operations, oldest first. -/
def applyOps (ops : List Op) (cb : CB) : CB :=
  ops.foldl (fun cb op => applyOp op cb) cb

/-- An operation that is neither a manual override nor a reset. -/
def passiveOp : Op → Bool
  | Op.opOpen => false
  | Op.opClose => false
  | Op.opReset => false
  | _ => true

/-! Helper lemmas. -/

lemma updateState_forced (cb : CB) : (updateState cb).forced = cb.forced := by
  simp only [updateState]
  split <;> split <;> rfl

lemma updateState_buckets (cb : CB) : (updateState cb).buckets = cb.buckets := by
  simp only [updateState]
  split <;> split <;> rfl

lemma measure_done_noop (p : Measure) (st : Status) (cb : CB) (hd : st.done = true) :
    measure p st cb = (st, cb) := by
  simp [measure, hd]

lemma measure_fst_done (p : Measure) (st : Status) (cb : CB) (hd : st.done = false) :
    ((measure p st cb).1).done = true := by
  simp [measure, hd]

lemma measure_snd_forced (p : Measure) (st : Status) (cb : CB) :
    ((measure p st cb).2).forced = cb.forced := by
  by_cases hd : st.done
  · simp [measure, hd]
  · simp [measure, hd]
    split
    · rw [updateState_forced]
    · rfl

lemma measure_snd_buckets (p : Measure) (st : Status) (cb : CB) (hd : st.done = false) :
    ((measure p st cb).2).buckets = updateLast (incMeasure p) cb.buckets := by
  simp [measure, hd]
  split
  · rw [updateState_buckets]
  · rfl

lemma measure_state_of_forced_ne (p : Measure) (st : Status) (cb : CB)
    (h : cb.forced ≠ JState.jnull) : ((measure p st cb).2).state = cb.state := by
  by_cases hd : st.done
  · simp [measure, hd]
  · simp [measure, hd, h]

lemma runCallbacks_done (qs : List Measure) (st : Status) (cb : CB) (hd : st.done = true) :
    runCallbacks qs st cb = (st, cb) := by
  induction qs with
  | nil => rfl
  | cons q rest ih =>
      simp only [runCallbacks]
      rw [measure_done_noop q st cb hd]
      exact ih

lemma tick_forced (cb : CB) : (tick cb).forced = cb.forced := by
  simp only [tick, createNextSlidingBucket, isOpen]
  split <;> split <;> rfl

/-! Claim theorems. -/

/-- C1: on a freshly constructed breaker with calibration 5 and tolerance 50
and no manual override, recording six failure measurements one at a time
leaves the snapshot at total 6 and percent 100, but the state stays CLOSED
and the onopen callback is never invoked: the forced field is undefined, not
strictly null, so no measurement ever reaches updateState.  This evaluates
the code at the failing input of the claim. -/
theorem c1_code_evaluation :
    calculate (applyOps (List.replicate 6 (Op.opMeasure Measure.failure))
        (mkBreaker { calibration := some 5, tolerance := some 50 })).buckets
      = { total := 6, error := 6, percent := 100 } ∧
    (applyOps (List.replicate 6 (Op.opMeasure Measure.failure))
        (mkBreaker { calibration := some 5, tolerance := some 50 })).state
      = JState.stClosed ∧
    (applyOps (List.replicate 6 (Op.opMeasure Measure.failure))
        (mkBreaker { calibration := some 5, tolerance := some 50 })).onopenCalls
      = [] := by
  have hb : (applyOps (List.replicate 6 (Op.opMeasure Measure.failure))
      (mkBreaker { calibration := some 5, tolerance := some 50 })).buckets
    = [{ failure := 6, success := 0, timeout := 0, outage := 0 }] := by decide
  refine ⟨?_, by decide, by decide⟩
  rw [hb]
  norm_num [calculate]

/-- C3 counterexample: a breaker forced OPEN by the open method (forced is
CLOSED, hence non-null) is still moved to HALF_OPEN by a full-window rollover
of the rotation counter: with one bucket configured, two ticks roll the
window over and the state leaves OPEN although the override is active. -/
theorem c3_counterexample :
    (openBreaker (mkBreaker { bucketsNumber := some 1 })).state = JState.stOpen ∧
    (ticks 2 (openBreaker (mkBreaker { bucketsNumber := some 1 }))).forced
      = JState.stClosed ∧
    JState.stClosed ≠ JState.jnull ∧
    (ticks 2 (openBreaker (mkBreaker { bucketsNumber := some 1 }))).state
      = JState.stHalfOpen := by
  decide

/-- C3 amended: while a manual override is active (forced non-null),
committed measurements do not change the state, although they still
accumulate in the window buckets; but a full-window rollover of the rotation
counter is not suspended: it still moves an OPEN breaker to HALF_OPEN. -/
theorem c3_amended_override_behavior (cb : CB) (p : Measure) (st : Status)
    (hf : cb.forced ≠ JState.jnull) :
    ((measure p st cb).2).state = cb.state ∧
    (st.done = false →
      ((measure p st cb).2).buckets = updateLast (incMeasure p) cb.buckets) ∧
    (cb.state = JState.stOpen → cb.bucketsNumber < cb.bucketIndex + 1 →
      (tick cb).state = JState.stHalfOpen) := by
  refine ⟨measure_state_of_forced_ne p st cb hf,
    fun hd => measure_snd_buckets p st cb hd, fun hs hidx => ?_⟩
  simp [tick, createNextSlidingBucket, isOpen, hidx, hs]

/-- C3 amended witness: a concrete forced-OPEN breaker one tick before
rollover satisfies the hypotheses of the amended claim. -/
theorem c3_amended_witness :
    ((tick (openBreaker (mkBreaker { bucketsNumber := some 1 }))).forced
        ≠ JState.jnull) ∧
    (((measure Measure.failure freshStatus
        (tick (openBreaker (mkBreaker { bucketsNumber := some 1 })))).2).state
      = (tick (openBreaker (mkBreaker { bucketsNumber := some 1 }))).state ∧
    (freshStatus.done = false →
      ((measure Measure.failure freshStatus
          (tick (openBreaker (mkBreaker { bucketsNumber := some 1 })))).2).buckets
        = updateLast (incMeasure Measure.failure)
            (tick (openBreaker (mkBreaker { bucketsNumber := some 1 }))).buckets) ∧
    ((tick (openBreaker (mkBreaker { bucketsNumber := some 1 }))).state
        = JState.stOpen →
      (tick (openBreaker (mkBreaker { bucketsNumber := some 1 }))).bucketsNumber
        < (tick (openBreaker (mkBreaker { bucketsNumber := some 1 }))).bucketIndex + 1 →
      (tick (tick (openBreaker (mkBreaker { bucketsNumber := some 1 })))).state
        = JState.stHalfOpen)) :=
  ⟨by decide,
   c3_amended_override_behavior
     (tick (openBreaker (mkBreaker { bucketsNumber := some 1 })))
     Measure.failure freshStatus (by decide)⟩

/-- C4: exactly-once commit.  Once the first outcome callback of an
invocation has been accepted (its shared status record had done still
false), any further sequence of outcome callbacks on the same invocation is
a no-op: the status record, the buckets and the whole breaker (state
included) are unchanged. -/
theorem c4_exactly_once_commit (p : Measure) (st : Status) (cb : CB)
    (qs : List Measure) (hd : st.done = false) :
    runCallbacks qs (measure p st cb).1 (measure p st cb).2 = measure p st cb := by
  rw [runCallbacks_done qs (measure p st cb).1 (measure p st cb).2
    (measure_fst_done p st cb hd)]

/-- C4 witness: a failure committed on a fresh invocation, followed by a
success and a timeout report, leaves everything unchanged. -/
theorem c4_exactly_once_commit_witness :
    freshStatus.done = false ∧
    runCallbacks [Measure.success, Measure.timeout]
        (measure Measure.failure freshStatus (mkBreaker {})).1
        (measure Measure.failure freshStatus (mkBreaker {})).2
      = measure Measure.failure freshStatus (mkBreaker {}) :=
  ⟨rfl, c4_exactly_once_commit Measure.failure freshStatus (mkBreaker {})
    [Measure.success, Measure.timeout] rfl⟩

/-- C5: the execute method stores the pending timeout handle in the timer
field of the status record, but the measure closure inspects and clears only
the field named timeout, which execute never sets.  Evaluating the code at
the failing input of the claim: with a per-call timeout of 100 and a command
that reports success synchronously, the commit is accepted (done becomes
true) yet the timer handle is still live afterwards. -/
theorem c5_code_evaluation :
    ((execute { acts := [Measure.success], throws := false } (some 100)
        (mkBreaker {})).1).done = true ∧
    ((execute { acts := [Measure.success], throws := false } (some 100)
        (mkBreaker {})).1).timer = true ∧
    ((execute { acts := [Measure.success], throws := false } (some 100)
        (mkBreaker {})).1).timeout = false := by
  decide

/-- C6 counterexample: the open method overwrites forced unconditionally, so
after two open calls on a breaker constructed CLOSED, a single reset leaves
the breaker OPEN instead of restoring the CLOSED state that was active at
the time of the first override. -/
theorem c6_counterexample :
    (mkBreaker {}).state = JState.stClosed ∧
    (resetBreaker (openBreaker (openBreaker (mkBreaker {})))).state
      = JState.stOpen ∧
    JState.stOpen ≠ JState.stClosed := by
  decide

/-- C6 amended: open and close unconditionally record the current state into
forced, even when an override is already active; a single reset therefore
restores the state that was active at the time of the most recent
open or close call, not the first. -/
theorem c6_amended_forced_overwrite (cb : CB) :
    (openBreaker cb).forced = cb.state ∧
    (closeBreaker cb).forced = cb.state ∧
    (resetBreaker (openBreaker cb)).state = cb.state ∧
    (resetBreaker (closeBreaker cb)).state = cb.state :=
  ⟨rfl, rfl, rfl, rfl⟩

lemma error_sum_le_total_sum (bs : List Bucket) :
    (bs.map (fun b => b.failure + b.timeout)).sum
      ≤ (bs.map (fun b => (b.failure + b.timeout) + b.success)).sum := by
  induction bs with
  | nil => simp
  | cons b rest ih =>
      simp only [List.map_cons, List.sum_cons]
      omega

lemma total_sum_comm (bs : List Bucket) :
    (bs.map (fun b => (b.failure + b.timeout) + b.success)).sum
      = (bs.map (fun b => b.success + b.failure + b.timeout)).sum := by
  induction bs with
  | nil => rfl
  | cons b rest ih =>
      simp only [List.map_cons, List.sum_cons]
      omega

lemma percent_spec (e t : Nat) (h : e ≤ t) :
    ((e : ℚ) / (if 0 < t then (t : ℚ) else 1)) * 100
      = (e : ℚ) / max (t : ℚ) 1 * 100 ∧
    0 ≤ ((e : ℚ) / (if 0 < t then (t : ℚ) else 1)) * 100 ∧
    ((e : ℚ) / (if 0 < t then (t : ℚ) else 1)) * 100 ≤ 100 ∧
    (t = 0 → ((e : ℚ) / (if 0 < t then (t : ℚ) else 1)) * 100 = 0) := by
  rcases Nat.eq_zero_or_pos t with h0 | h0
  · have he : e = 0 := by omega
    subst h0
    subst he
    norm_num
  · have ht : (0 : ℚ) < (t : ℚ) := by exact_mod_cast h0
    have h1 : (1 : ℚ) ≤ (t : ℚ) := by exact_mod_cast h0
    rw [if_pos h0, max_eq_left h1]
    have hdiv : (e : ℚ) / (t : ℚ) ≤ 1 := by
      rw [div_le_one ht]
      exact_mod_cast h
    refine ⟨rfl, by positivity, ?_, ?_⟩
    · calc (e : ℚ) / (t : ℚ) * 100 ≤ 1 * 100 :=
            mul_le_mul_of_nonneg_right hdiv (by norm_num)
        _ = 100 := by norm_num
    · intro heq
      exact absurd heq (by omega)

/-- C8: for every bucket sequence, calculate returns the total of
success + failure + timeout over all buckets with outage excluded, the error
as failure + timeout summed, and the percentage as error over max(total, 1)
times 100; the percentage always lies in [0, 100] and is 0 when the total
is 0. -/
theorem c8_calculate_bounds (bs : List Bucket) :
    (calculate bs).total = (bs.map (fun b => b.success + b.failure + b.timeout)).sum ∧
    (calculate bs).error = (bs.map (fun b => b.failure + b.timeout)).sum ∧
    (calculate bs).percent
      = ((calculate bs).error : ℚ) / max ((calculate bs).total : ℚ) 1 * 100 ∧
    0 ≤ (calculate bs).percent ∧
    (calculate bs).percent ≤ 100 ∧
    ((calculate bs).total = 0 → (calculate bs).percent = 0) := by
  obtain ⟨hmax, hnonneg, hle, hzero⟩ :=
    percent_spec (bs.map (fun b => b.failure + b.timeout)).sum
      (bs.map (fun b => (b.failure + b.timeout) + b.success)).sum
      (error_sum_le_total_sum bs)
  exact ⟨total_sum_comm bs, rfl, hmax, hnonneg, hle, hzero⟩

lemma cfgVal_one_le (given : Option Int) (dflt : Nat) (hd : 1 ≤ dflt) :
    1 ≤ cfgVal given dflt := by
  cases given with
  | none => exact hd
  | some v =>
      by_cases hv : 0 < v
      · simp only [cfgVal, if_pos hv]
        omega
      · simp only [cfgVal, if_neg hv]
        exact hd

lemma createNext_buckets_len (cb : CB) (h1 : 1 ≤ cb.bucketsNumber)
    (h : cb.buckets.length ≤ cb.bucketsNumber) :
    (createNextSlidingBucket cb).buckets.length ≤ cb.bucketsNumber := by
  simp only [createNextSlidingBucket]
  have h0 : ¬ cb.bucketsNumber < cb.buckets.length := not_lt.mpr h
  rw [if_neg h0]
  by_cases hc : cb.bucketsNumber < (cb.buckets ++ [emptyBucket]).length
  · rw [if_pos hc]
    simp only [List.length_tail, List.length_append, List.length_cons,
      List.length_nil] at *
    omega
  · rw [if_neg hc]
    simp only [List.length_append, List.length_cons, List.length_nil] at hc ⊢
    omega

lemma tick_buckets (cb : CB) :
    (tick cb).buckets = (createNextSlidingBucket cb).buckets := by
  simp only [tick]
  split
  · split <;> rfl
  · rfl

lemma tick_bucketsNumber (cb : CB) : (tick cb).bucketsNumber = cb.bucketsNumber := by
  simp only [tick]
  split
  · split <;> rfl
  · rfl

lemma ticks_len_invariant (k : Nat) :
    ∀ cb : CB, 1 ≤ cb.bucketsNumber → cb.buckets.length ≤ cb.bucketsNumber →
      (ticks k cb).buckets.length ≤ (ticks k cb).bucketsNumber ∧
      (ticks k cb).bucketsNumber = cb.bucketsNumber := by
  induction k with
  | zero => exact fun cb _ h2 => ⟨h2, rfl⟩
  | succ n ih =>
      intro cb h1 h2
      have hb : (tick cb).bucketsNumber = cb.bucketsNumber := tick_bucketsNumber cb
      have hlen : (tick cb).buckets.length ≤ (tick cb).bucketsNumber := by
        rw [hb, tick_buckets]
        exact createNext_buckets_len cb h1 h2
      have hrec := ih (tick cb) (by rw [hb]; exact h1) hlen
      refine ⟨?_, ?_⟩
      · show (ticks n (tick cb)).buckets.length ≤ (ticks n (tick cb)).bucketsNumber
        exact hrec.1
      · show (ticks n (tick cb)).bucketsNumber = cb.bucketsNumber
        rw [hrec.2, hb]

/-- C9: for every configuration and every number of rotation ticks starting
from the initial single-bucket window, the bucket sequence never grows past
the configured bucket count. -/
theorem c9_window_capacity (options : Options) (k : Nat) :
    (ticks k (mkBreaker options)).buckets.length ≤ (mkBreaker options).bucketsNumber := by
  have h1 : 1 ≤ (mkBreaker options).bucketsNumber :=
    cfgVal_one_le options.bucketsNumber 10 (by omega)
  have h2 : (mkBreaker options).buckets.length ≤ (mkBreaker options).bucketsNumber := by
    simpa [mkBreaker] using h1
  have h := ticks_len_invariant k (mkBreaker options) h1 h2
  exact h.2 ▸ h.1

lemma tick_state_cases (cb : CB) :
    (tick cb).state = cb.state ∨ (tick cb).state = JState.stHalfOpen := by
  simp only [tick, createNextSlidingBucket, isOpen]
  split
  · split
    · right
      rfl
    · left
      rfl
  · left
    rfl

lemma applyOps_no_reset_inv (ops : List Op) :
    ∀ cb : CB, Op.opReset ∉ ops → cb.forced ≠ JState.jnull → cb.state ≠ JState.jnull →
      (applyOps ops cb).forced ≠ JState.jnull ∧ (applyOps ops cb).state ≠ JState.jnull := by
  induction ops with
  | nil => exact fun cb _ h1 h2 => ⟨h1, h2⟩
  | cons op rest ih =>
      intro cb hops h1 h2
      have hrest : Op.opReset ∉ rest := fun hm => hops (List.mem_cons_of_mem _ hm)
      have hstep : (applyOp op cb).forced ≠ JState.jnull ∧
          (applyOp op cb).state ≠ JState.jnull := by
        cases op with
        | opMeasure p =>
            constructor
            · show ((measure p freshStatus cb).2).forced ≠ JState.jnull
              rw [measure_snd_forced]
              exact h1
            · show ((measure p freshStatus cb).2).state ≠ JState.jnull
              rw [measure_state_of_forced_ne p freshStatus cb h1]
              exact h2
        | opTick =>
            constructor
            · show (tick cb).forced ≠ JState.jnull
              rw [tick_forced]
              exact h1
            · rcases tick_state_cases cb with hc | hc
              · show (tick cb).state ≠ JState.jnull
                rw [hc]
                exact h2
              · show (tick cb).state ≠ JState.jnull
                rw [hc]
                simp
        | opOpen => exact ⟨h2, by simp [applyOp, openBreaker]⟩
        | opClose => exact ⟨h2, by simp [applyOp, closeBreaker]⟩
        | opReset => exact absurd (List.mem_cons_self _ _) hops
      have hrec := ih (applyOp op cb) hrest hstep.1 hstep.2
      exact hrec

lemma applyOps_passive_forced (ops : List Op) :
    ∀ cb : CB, (∀ op ∈ ops, passiveOp op = true) →
      (applyOps ops cb).forced = cb.forced := by
  induction ops with
  | nil => exact fun cb _ => rfl
  | cons op rest ih =>
      intro cb hops
      have hrest : ∀ o ∈ rest, passiveOp o = true :=
        fun o ho => hops o (List.mem_cons_of_mem _ ho)
      have hop := hops op (List.mem_cons_self _ _)
      have hstep : (applyOp op cb).forced = cb.forced := by
        cases op with
        | opMeasure p => exact measure_snd_forced p freshStatus cb
        | opTick => exact tick_forced cb
        | opOpen => simp [passiveOp] at hop
        | opClose => simp [passiveOp] at hop
        | opReset => simp [passiveOp] at hop
      show (applyOps rest (applyOp op cb)).forced = cb.forced
      rw [ih (applyOp op cb) hrest, hstep]

/-- C2: on a breaker on which reset has never been called, the forced field
is never strictly equal to null (it still holds its unassigned undefined
value whenever open and close were never called either), so a committed
measurement never triggers state re-evaluation: the state after any
measurement equals the state before it, and in reset-free runs the state can
change only through the open, close or tick operations. -/
theorem c2_measurements_never_reevaluate (o : Options) (ops : List Op)
    (p : Measure) (st : Status) (hops : Op.opReset ∉ ops) :
    (applyOps ops (mkBreaker o)).forced ≠ JState.jnull ∧
    ((∀ op ∈ ops, passiveOp op = true) →
      (applyOps ops (mkBreaker o)).forced = JState.undef) ∧
    ((measure p st (applyOps ops (mkBreaker o))).2).state
      = (applyOps ops (mkBreaker o)).state := by
  have hinv := applyOps_no_reset_inv ops (mkBreaker o) hops
    (by simp [mkBreaker]) (by simp [mkBreaker])
  refine ⟨hinv.1, ?_, measure_state_of_forced_ne p st _ hinv.1⟩
  intro hp
  rw [applyOps_passive_forced ops (mkBreaker o) hp]
  rfl

/-- C2 witness: a failure measurement and a tick, then one more measurement,
on a default breaker. -/
theorem c2_measurements_never_reevaluate_witness :
    (Op.opReset ∉ [Op.opMeasure Measure.failure, Op.opTick]) ∧
    ((applyOps [Op.opMeasure Measure.failure, Op.opTick] (mkBreaker {})).forced
        ≠ JState.jnull ∧
    ((∀ op ∈ [Op.opMeasure Measure.failure, Op.opTick], passiveOp op = true) →
      (applyOps [Op.opMeasure Measure.failure, Op.opTick] (mkBreaker {})).forced
        = JState.undef) ∧
    ((measure Measure.success freshStatus
        (applyOps [Op.opMeasure Measure.failure, Op.opTick] (mkBreaker {}))).2).state
      = (applyOps [Op.opMeasure Measure.failure, Op.opTick] (mkBreaker {})).state) :=
  ⟨by decide, c2_measurements_never_reevaluate {}
    [Op.opMeasure Measure.failure, Op.opTick] Measure.success freshStatus (by decide)⟩

/-- C10: calling reset on a breaker whose override methods were never used
copies the undefined forced value into the state, which then lies outside
the three STATE constants; forced becomes strictly null, isOpen reports
false, and from then on a committed measurement reaches updateState. -/
theorem c10_reset_without_override (o : Options) (ops : List Op) (p : Measure)
    (st : Status) (hops : ∀ op ∈ ops, passiveOp op = true)
    (hst : st.done = false) :
    (resetBreaker (applyOps ops (mkBreaker o))).state = JState.undef ∧
    ((resetBreaker (applyOps ops (mkBreaker o))).state ≠ JState.stOpen ∧
      (resetBreaker (applyOps ops (mkBreaker o))).state ≠ JState.stHalfOpen ∧
      (resetBreaker (applyOps ops (mkBreaker o))).state ≠ JState.stClosed) ∧
    (resetBreaker (applyOps ops (mkBreaker o))).forced = JState.jnull ∧
    isOpen (resetBreaker (applyOps ops (mkBreaker o))) = false ∧
    (measure p st (resetBreaker (applyOps ops (mkBreaker o)))).2
      = updateState { resetBreaker (applyOps ops (mkBreaker o)) with
          buckets := updateLast (incMeasure p)
            (resetBreaker (applyOps ops (mkBreaker o))).buckets } := by
  have hforced : (applyOps ops (mkBreaker o)).forced = JState.undef :=
    applyOps_passive_forced ops (mkBreaker o) hops
  have hstate : (resetBreaker (applyOps ops (mkBreaker o))).state = JState.undef := by
    show (applyOps ops (mkBreaker o)).forced = JState.undef
    exact hforced
  refine ⟨hstate, ⟨by rw [hstate]; simp, by rw [hstate]; simp, by rw [hstate]; simp⟩,
    rfl, ?_, ?_⟩
  · simp [isOpen, hstate]
  · simp [measure, hst, resetBreaker]

/-- C10 witness: one rotation tick on a default breaker, then reset, then a
failure measurement. -/
theorem c10_reset_without_override_witness :
    ((∀ op ∈ [Op.opTick], passiveOp op = true) ∧ freshStatus.done = false) ∧
    ((resetBreaker (applyOps [Op.opTick] (mkBreaker {}))).state = JState.undef ∧
    ((resetBreaker (applyOps [Op.opTick] (mkBreaker {}))).state ≠ JState.stOpen ∧
      (resetBreaker (applyOps [Op.opTick] (mkBreaker {}))).state ≠ JState.stHalfOpen ∧
      (resetBreaker (applyOps [Op.opTick] (mkBreaker {}))).state ≠ JState.stClosed) ∧
    (resetBreaker (applyOps [Op.opTick] (mkBreaker {}))).forced = JState.jnull ∧
    isOpen (resetBreaker (applyOps [Op.opTick] (mkBreaker {}))) = false ∧
    (measure Measure.failure freshStatus
        (resetBreaker (applyOps [Op.opTick] (mkBreaker {})))).2
      = updateState { resetBreaker (applyOps [Op.opTick] (mkBreaker {})) with
          buckets := updateLast (incMeasure Measure.failure)
            (resetBreaker (applyOps [Op.opTick] (mkBreaker {}))).buckets }) :=
  ⟨⟨by decide, rfl⟩, c10_reset_without_override {} [Op.opTick] Measure.failure
    freshStatus (by decide) rfl⟩

lemma fallbackRun_eq (fb : Except String Unit) (cb : CB) :
    fallbackRun fb cb
      = { cb with buckets :=
          updateLast (fun b => { b with outage := b.outage + 1 }) cb.buckets } := by
  cases fb <;> rfl

lemma updateLast_map_eq (f : Bucket → Bucket) (g : Bucket → Nat)
    (hfg : ∀ b, g (f b) = g b) :
    ∀ bs : List Bucket, (updateLast f bs).map g = bs.map g
  | [] => rfl
  | [b] => by simp [updateLast, hfg]
  | a :: b :: rest => by
      show (a :: updateLast f (b :: rest)).map g = (a :: b :: rest).map g
      simp only [List.map_cons]
      rw [updateLast_map_eq f g hfg (b :: rest), List.map_cons]

lemma calculate_updateLast (f : Bucket → Bucket)
    (h1 : ∀ b, (f b).failure + (f b).timeout = b.failure + b.timeout)
    (h2 : ∀ b, ((f b).failure + (f b).timeout) + (f b).success
      = (b.failure + b.timeout) + b.success) (bs : List Bucket) :
    calculate (updateLast f bs) = calculate bs := by
  simp only [calculate]
  rw [updateLast_map_eq f (fun b => b.failure + b.timeout) h1 bs,
    updateLast_map_eq f (fun b => (b.failure + b.timeout) + b.success) h2 bs]

lemma getLastBucket_updateLast (f : Bucket → Bucket) :
    ∀ bs : List Bucket, bs ≠ [] →
      getLastBucket (updateLast f bs) = f (getLastBucket bs)
  | [], h => absurd rfl h
  | [b], _ => rfl
  | a :: b :: rest, _ => by
      cases rest with
      | nil => rfl
      | cons c cs => exact getLastBucket_updateLast f (b :: c :: cs) (by simp)

/-- C7: when the breaker is OPEN, run takes the fallback path: the command
is not executed, any exception the fallback raises is discarded (the result
does not depend on whether the fallback raised), the outage counter of the
current bucket grows by exactly one, calculate is unchanged, no measurement
is recorded and no state re-evaluation happens (state, forced and both
callback traces are untouched), and isOpen stays true. -/
theorem c7_open_circuit_fallback (cmd : Command) (fb : Except String Unit)
    (tmo : Option Int) (cb : CB) (hopen : isOpen cb = true)
    (hne : cb.buckets ≠ []) :
    run cmd fb tmo cb = fallbackRun fb cb ∧
    (run cmd fb tmo cb).buckets
      = updateLast (fun b => { b with outage := b.outage + 1 }) cb.buckets ∧
    getLastBucket (run cmd fb tmo cb).buckets
      = { getLastBucket cb.buckets with
          outage := (getLastBucket cb.buckets).outage + 1 } ∧
    calculate (run cmd fb tmo cb).buckets = calculate cb.buckets ∧
    (run cmd fb tmo cb).state = cb.state ∧
    (run cmd fb tmo cb).forced = cb.forced ∧
    (run cmd fb tmo cb).onopenCalls = cb.onopenCalls ∧
    (run cmd fb tmo cb).oncloseCalls = cb.oncloseCalls ∧
    isOpen (run cmd fb tmo cb) = true ∧
    run cmd (Except.error "fallback exception") tmo cb
      = run cmd (Except.ok ()) tmo cb := by
  have hrun : run cmd fb tmo cb = fallbackRun fb cb := by
    simp [run, hopen]
  have hbuckets : (run cmd fb tmo cb).buckets
      = updateLast (fun b => { b with outage := b.outage + 1 }) cb.buckets := by
    rw [hrun, fallbackRun_eq]
  refine ⟨hrun, hbuckets, ?_, ?_, ?_, ?_, ?_, ?_, ?_, ?_⟩
  · rw [hbuckets]
    exact getLastBucket_updateLast _ cb.buckets hne
  · rw [hbuckets]
    exact calculate_updateLast (fun b => { b with outage := b.outage + 1 })
      (fun b => rfl) (fun b => rfl) cb.buckets
  · rw [hrun, fallbackRun_eq]
  · rw [hrun, fallbackRun_eq]
  · rw [hrun, fallbackRun_eq]
  · rw [hrun, fallbackRun_eq]
  · rw [hrun, fallbackRun_eq]
    exact hopen
  · rw [show run cmd (Except.error "fallback exception") tmo cb
        = fallbackRun (Except.error "fallback exception") cb from by simp [run, hopen],
      show run cmd (Except.ok ()) tmo cb = fallbackRun (Except.ok ()) cb from by
        simp [run, hopen],
      fallbackRun_eq, fallbackRun_eq]

/-- C7 witness: a breaker forced OPEN right after construction. -/
theorem c7_open_circuit_fallback_witness :
    (isOpen (openBreaker (mkBreaker {})) = true ∧
      (openBreaker (mkBreaker {})).buckets ≠ []) ∧
    (run { acts := [], throws := false } (Except.ok ()) none (openBreaker (mkBreaker {}))
        = fallbackRun (Except.ok ()) (openBreaker (mkBreaker {})) ∧
    (run { acts := [], throws := false } (Except.ok ()) none
        (openBreaker (mkBreaker {}))).buckets
      = updateLast (fun b => { b with outage := b.outage + 1 })
          (openBreaker (mkBreaker {})).buckets ∧
    getLastBucket (run { acts := [], throws := false } (Except.ok ()) none
        (openBreaker (mkBreaker {}))).buckets
      = { getLastBucket (openBreaker (mkBreaker {})).buckets with
          outage := (getLastBucket (openBreaker (mkBreaker {})).buckets).outage + 1 } ∧
    calculate (run { acts := [], throws := false } (Except.ok ()) none
        (openBreaker (mkBreaker {}))).buckets
      = calculate (openBreaker (mkBreaker {})).buckets ∧
    (run { acts := [], throws := false } (Except.ok ()) none
        (openBreaker (mkBreaker {}))).state = (openBreaker (mkBreaker {})).state ∧
    (run { acts := [], throws := false } (Except.ok ()) none
        (openBreaker (mkBreaker {}))).forced = (openBreaker (mkBreaker {})).forced ∧
    (run { acts := [], throws := false } (Except.ok ()) none
        (openBreaker (mkBreaker {}))).onopenCalls
      = (openBreaker (mkBreaker {})).onopenCalls ∧
    (run { acts := [], throws := false } (Except.ok ()) none
        (openBreaker (mkBreaker {}))).oncloseCalls
      = (openBreaker (mkBreaker {})).oncloseCalls ∧
    isOpen (run { acts := [], throws := false } (Except.ok ()) none
        (openBreaker (mkBreaker {}))) = true ∧
    run { acts := [], throws := false } (Except.error "fallback exception") none
        (openBreaker (mkBreaker {}))
      = run { acts := [], throws := false } (Except.ok ()) none
          (openBreaker (mkBreaker {}))) :=
  ⟨⟨rfl, by decide⟩, c7_open_circuit_fallback { acts := [], throws := false }
    (Except.ok ()) none (openBreaker (mkBreaker {})) rfl (by decide)⟩

end CircuitBreaker
